import Mathlib

/-!
Verification of the peer-connection and offline-synchronization core of the
beehive repository, shallowly embedded from src/src/network/p2p.js and
src/src/offline/capabilities.js.

JavaScript Map objects are modelled as insertion-ordered association lists
with string keys; Map.get, Map.set and Map.has become mapGet, mapSet and
mapHas. Timestamps (Date.now()) are passed in explicitly as natural numbers.
Promise rejection / thrown exceptions are modelled with Except. External
library primitives (the SHA-256 digest from the crypto module, the WebRTC
offer/answer transport) enter as explicit function parameters, since they are
not code of this repository.

Several methods are invoked in the two source files but defined nowhere in
the repository (closeConnection, handleConnectionError, sendToPeer,
waitForAnswer, the five message handlers, getLocalChanges,
compareVersionVectors, exchangeChanges, updateVersionVector). The design
document treats these as injectable strategies or describes their intended
behavior; each such definition below carries a doc comment beginning
"Modelled from the spec:".
-/

set_option maxHeartbeats 1000000

namespace Beehive

/-- Lookup in the association-list model of a JavaScript Map
(first binding wins; maps built with mapSet keep keys unique). -/
def mapGet {β : Type} : List (String × β) → String → Option β
  | [], _ => none
  | e :: es, k => if e.1 = k then some e.2 else mapGet es k

/-- Map.set: replace the binding for the key if present, else append. -/
def mapSet {β : Type} : List (String × β) → String → β → List (String × β)
  | [], k, v => [(k, v)]
  | e :: es, k, v => if e.1 = k then (k, v) :: es else e :: mapSet es k v

/-- Map.has. -/
def mapHas {β : Type} (m : List (String × β)) (k : String) : Bool :=
  (mapGet m k).isSome

/-! ## Sync engine (src/src/offline/capabilities.js) -/

/-- The syncState object of OfflineCapabilities (capabilities.js lines 18-23):
lastSync timestamp, the single-flight flag, the set of pending change ids and
the per-peer version-vector map. Version-vector entries have abstract type V. -/
structure SyncState (V : Type) where
  lastSync : Option Nat
  syncInProgress : Bool
  pendingChanges : List String
  versionVector : List (String × V)

/-- Outcome recorded for one peer during a sync pass: either the peer was
synced (version vector updated) or it was skipped by the per-peer catch. -/
inductive PeerSyncOutcome where
  | synced
  | skipped
deriving DecidableEq, Repr

/-- A peer as consumed by syncWithPeers: an id and the prescribed outcome of
awaiting peer.getVersionVector() (a resolved vector or a rejection). -/
structure SyncPeer (V E : Type) where
  id : String
  getVersionVector : Except E V

/-- The diff produced by version-vector comparison. The source only ever
reads its needsUpdate field (capabilities.js line 191). -/
structure SyncDiff where
  needsUpdate : Bool

/-- Modelled from the spec: getLocalChanges, compareVersionVectors and
exchangeChanges are invoked in capabilities.js (lines 181, 188, 192) but
defined nowhere in the repository; the design document (section 9) directs
that they be treated as an injectable strategy interface. getLocalChanges
yields the local changes or rejects; compareVersionVectors takes the local
version-vector map and the peer vector and returns a diff; exchangeChanges
takes the peer (by id) and the diff and succeeds or rejects. -/
structure SyncStrategy (V E C : Type) where
  getLocalChanges : Except E C
  compareVersionVectors : List (String × V) → V → SyncDiff
  exchangeChanges : String → SyncDiff → Except E Unit

/-- One iteration of the per-peer loop of syncWithPeers (capabilities.js
lines 184-201): await the peer version vector, compare, exchange changes when
the diff needs an update, then record the peer vector locally (the
updateVersionVector call, modelled from the spec as updating the local
version-vector entry for that peer). Any rejection lands in the inner catch:
the peer is skipped and the state is left as it was. -/
def syncOnePeer {V E C : Type} (strat : SyncStrategy V E C) (st : SyncState V)
    (p : SyncPeer V E) : SyncState V × PeerSyncOutcome :=
  match p.getVersionVector with
  | .error _ => (st, .skipped)
  | .ok pv =>
      let d := strat.compareVersionVectors st.versionVector pv
      if d.needsUpdate then
        match strat.exchangeChanges p.id d with
        | .error _ => (st, .skipped)
        | .ok _ => ({ st with versionVector := mapSet st.versionVector p.id pv }, .synced)
      else ({ st with versionVector := mapSet st.versionVector p.id pv }, .synced)

/-- The sequential for-loop over peers, threading the sync state and
recording one trace entry per peer in order. -/
def syncLoop {V E C : Type} (strat : SyncStrategy V E C) (st : SyncState V) :
    List (SyncPeer V E) → SyncState V × List (String × PeerSyncOutcome)
  | [] => (st, [])
  | p :: ps =>
      let r1 := syncOnePeer strat st p
      let r2 := syncLoop strat r1.1 ps
      (r2.1, (p.id, r1.2) :: r2.2)

/-- Result of a syncWithPeers call: the final sync state, the trace of peers
attempted (in order, with their outcome) and whether the call resolved or
rejected. -/
structure SyncResult (V E : Type) where
  state : SyncState V
  trace : List (String × PeerSyncOutcome)
  outcome : Except E Unit

/-- syncWithPeers (capabilities.js lines 170-208). If syncInProgress is
already set the call warns and returns at once. Otherwise it sets the flag,
stamps lastSync, awaits getLocalChanges (a rejection is logged by the outer
catch and rethrown), runs the per-peer loop, and in all cases the finally
block clears syncInProgress. -/
def syncWithPeers {V E C : Type} (strat : SyncStrategy V E C) (now : Nat)
    (st : SyncState V) (peers : List (SyncPeer V E)) : SyncResult V E :=
  if st.syncInProgress then ⟨st, [], .ok ()⟩
  else
    match strat.getLocalChanges with
    | .error e =>
        ⟨{ st with lastSync := some now, syncInProgress := false }, [], .error e⟩
    | .ok _ =>
        let r := syncLoop strat { st with lastSync := some now, syncInProgress := true } peers
        ⟨{ r.1 with syncInProgress := false }, r.2, .ok ()⟩

/-! ## P2P network (src/src/network/p2p.js) -/

/-- Connection settings (p2p.js lines 21-29, without the ICE server list). -/
structure P2PConfig where
  maxRetries : Nat
  retryDelay : Nat
  heartbeatInterval : Nat
  connectionTimeout : Nat
deriving DecidableEq

/-- The defaults from the P2PNetwork constructor. -/
def defaultConfig : P2PConfig := ⟨3, 1000, 30000, 10000⟩

/-- Resource limits (p2p.js lines 32-37). -/
structure P2PLimits where
  maxPeers : Nat
  maxConnections : Nat
  maxPendingConnections : Nat
  maxMessageSize : Nat
deriving DecidableEq

/-- The defaults from the P2PNetwork constructor. -/
def defaultLimits : P2PLimits := ⟨10, 20, 5, 1048576⟩

/-- A peer descriptor as passed to addPeer: name, publicKey and the
JSON-serialized metadata. -/
structure Peer where
  name : String
  publicKey : String
  metadata : String
deriving DecidableEq

/-- A row of the peers table as written by addPeer (p2p.js lines 206-218),
keyed by the peer id. -/
structure PeerRecord where
  name : String
  publicKey : String
  lastSeen : Nat
  trustScore : ℚ
  status : String
  metadata : String
deriving DecidableEq

/-- The in-memory connection object created by initializeConnection
(p2p.js lines 249-255). Its lastActive property is absent (undefined) until
updateConnectionStatus first sets it, hence the Option. crypto.randomUUID is
modelled as a fresh-number supply. -/
structure Connection where
  id : Nat
  peerId : String
  status : String
  established : Nat
  lastActive : Option Nat
  retries : Nat
deriving DecidableEq

/-- A row of the connections table as inserted by initializeConnection
(p2p.js lines 258-269). -/
structure ConnRow where
  id : Nat
  peerId : String
  status : String
  established : Nat
  lastActive : Nat
  metadata : String
deriving DecidableEq

/-- The mutable state of a P2PNetwork instance that the verified operations
touch: the in-memory peers and connections Maps, the persisted peers and
connections tables, and the fresh-id counter standing in for
crypto.randomUUID. -/
structure NetworkState where
  peers : List (String × Peer)
  connections : List (String × Connection)
  dbPeers : List (String × PeerRecord)
  dbConnections : List ConnRow
  nextConnId : Nat
deriving DecidableEq

/-- generatePeerId (p2p.js lines 347-351): the SHA-256 hex digest of the
descriptor publicKey. The digest itself is the external crypto-library
primitive, so it enters as the function parameter sha256hex. -/
def generatePeerId (sha256hex : String → String) (p : Peer) : String :=
  sha256hex p.publicKey

/-- The synchronous part of initializeConnection (p2p.js lines 243-279): the
connection-limit check, creation of the connection object, the INSERT of its
row, and registration in the connections Map. The subsequent awaited
establishConnection continuation is asynchronous and modelled separately. -/
def initializeConnection (limits : P2PLimits) (now : Nat) (st : NetworkState)
    (peerId : String) : Except String Connection × NetworkState :=
  if limits.maxConnections ≤ st.connections.length then
    (.error "Maximum connection limit reached", st)
  else
    let c : Connection := ⟨st.nextConnId, peerId, "initializing", now, none, 0⟩
    let row : ConnRow := ⟨c.id, peerId, c.status, now, now, "\x7b\x7d"⟩
    (.ok c,
      { st with
          dbConnections := st.dbConnections ++ [row],
          connections := mapSet st.connections peerId c,
          nextConnId := st.nextConnId + 1 })

/-- addPeer (p2p.js lines 198-224): reject when the peer count has reached
maxPeers; otherwise compute the deterministic id, INSERT OR REPLACE the peer
row (lastSeen = now, trustScore = 1.0, status = new), register the descriptor
in the peers Map and run initializeConnection. The source calls
initializeConnection without await, so its synchronous effects happen inside
addPeer while a rejection from it is not propagated to the caller. -/
def addPeer (sha256hex : String → String) (limits : P2PLimits) (now : Nat)
    (st : NetworkState) (p : Peer) : Except String String × NetworkState :=
  if limits.maxPeers ≤ st.peers.length then
    (.error "Maximum peer limit reached", st)
  else
    let peerId := generatePeerId sha256hex p
    let pr : PeerRecord := ⟨p.name, p.publicKey, now, 1, "new", p.metadata⟩
    let st1 := { st with
        dbPeers := mapSet st.dbPeers peerId pr,
        peers := mapSet st.peers peerId p }
    (.ok peerId, (initializeConnection limits now st1 peerId).2)

/-- updateConnectionStatus (p2p.js lines 377-390): set the status and stamp
lastActive on the in-memory connection (the matching UPDATE of the persisted
row is not needed by any claim and is omitted). No-op when the peer has no
connection. -/
def updateConnectionStatus (now : Nat) (conns : List (String × Connection))
    (peerId : String) (status : String) : List (String × Connection) :=
  match mapGet conns peerId with
  | some c => mapSet conns peerId { c with status := status, lastActive := some now }
  | none => conns

/-- shouldRetryConnection (p2p.js lines 414-417): true exactly when the peer
has a connection whose retries counter is below maxRetries. -/
def shouldRetryConnection (cfg : P2PConfig) (conns : List (String × Connection))
    (peerId : String) : Bool :=
  match mapGet conns peerId with
  | some c => c.retries < cfg.maxRetries
  | none => false

/-- retryConnection (p2p.js lines 419-427): increment the retries counter,
then schedule a new establishConnection attempt after
retryDelay * retries (the post-increment value). The returned Option Nat is
the scheduled delay, none when no attempt is scheduled. -/
def retryConnection (cfg : P2PConfig) (conns : List (String × Connection))
    (peerId : String) : List (String × Connection) × Option Nat :=
  match mapGet conns peerId with
  | some c =>
      (mapSet conns peerId { c with retries := c.retries + 1 },
        some (cfg.retryDelay * (c.retries + 1)))
  | none => (conns, none)

/-- Modelled from the spec: closeConnection is awaited in p2p.js (lines 229
and 405) but defined nowhere in the repository. Per the design document's
retry policy ("the connection is closed") it marks the peer's connection
closed; the entry stays in the Map, since shouldRetryConnection is consulted
on it immediately afterwards. -/
def closeConnection (conns : List (String × Connection)) (peerId : String) :
    List (String × Connection) :=
  match mapGet conns peerId with
  | some c => mapSet conns peerId { c with status := "closed" }
  | none => conns

/-- handleConnectionTimeout (p2p.js lines 403-412): close the connection,
then, when shouldRetryConnection allows it, run retryConnection. Returns the
updated connection Map and the scheduled retry delay, if any. -/
def handleConnectionTimeout (cfg : P2PConfig) (conns : List (String × Connection))
    (peerId : String) : List (String × Connection) × Option Nat :=
  let conns1 := closeConnection conns peerId
  if shouldRetryConnection cfg conns1 peerId then retryConnection cfg conns1 peerId
  else (conns1, none)

/-- Modelled from the spec: handleConnectionError is called in the catch
block of establishConnection (p2p.js line 308) but defined nowhere in the
repository. The design document's retry policy says that on establishment
failure the connection is closed and, if retries are not exhausted, a new
attempt is scheduled with linear backoff; it never rethrows. -/
def handleConnectionError (cfg : P2PConfig) (conns : List (String × Connection))
    (peerId : String) : List (String × Connection) × Option Nat :=
  let conns1 := closeConnection conns peerId
  if shouldRetryConnection cfg conns1 peerId then retryConnection cfg conns1 peerId
  else (conns1, none)

/-- The timeout test of monitorConnections (p2p.js line 396):
now - lastActive > connectionTimeout. When lastActive was never set the
JavaScript comparison is NaN and therefore false, hence the none branch. -/
def connTimedOut (cfg : P2PConfig) (now : Nat) (c : Connection) : Bool :=
  match c.lastActive with
  | some t => cfg.connectionTimeout < now - t
  | none => false

/-- The body of the monitorConnections loop for one peer id: re-read the
connection from the evolving Map and, when it is connected and has timed
out, apply handleConnectionTimeout. -/
def monitorStep (cfg : P2PConfig) (now : Nat) (acc : List (String × Connection))
    (peerId : String) : List (String × Connection) :=
  match mapGet acc peerId with
  | some c =>
      if c.status == "connected" && connTimedOut cfg now c then
        (handleConnectionTimeout cfg acc peerId).1
      else acc
  | none => acc

/-- monitorConnections (p2p.js lines 392-401): iterate over the connection
entries present when the scan starts (JavaScript Map iteration; the handlers
only mutate existing entries) and hand every timed-out connected connection
to handleConnectionTimeout. -/
def monitorConnections (cfg : P2PConfig) (now : Nat)
    (conns : List (String × Connection)) : List (String × Connection) :=
  (conns.map Prod.fst).foldl (monitorStep cfg now) conns

/-- establishConnection (p2p.js lines 281-310). The try block performs the
offer/answer exchange: createOffer and the description setters are external
WebRTC primitives, and sendToPeer / waitForAnswer are invoked but defined
nowhere in the repository, so the combined outcome of the exchange enters as
the parameter exchange. On success the connection is marked connected; any
failure lands in the catch, which logs and hands the peer to
handleConnectionError without rethrowing. Only a missing peer is thrown
synchronously. Returns the call outcome, the updated connection Map and the
retry delay scheduled by the error path, if any. -/
def establishConnection (cfg : P2PConfig) (now : Nat)
    (peers : List (String × Peer)) (conns : List (String × Connection))
    (peerId : String) (exchange : Except String Unit) :
    Except String Unit × (List (String × Connection) × Option Nat) :=
  match mapGet peers peerId with
  | none => (.error "Peer not found", (conns, none))
  | some _ =>
      match exchange with
      | .ok _ => (.ok (), (updateConnectionStatus now conns peerId "connected", none))
      | .error _ => (.ok (), handleConnectionError cfg conns peerId)

/-- broadcast (p2p.js lines 365-375): walk the connection entries and, for
every connection whose status is connected, attempt a send. sendToPeer is
invoked but defined nowhere in the repository, so the per-peer outcome enters
as the parameter send; a failed send is caught and logged, and the loop
continues. Returns the trace of attempted sends in order. -/
def broadcast {μ : Type} (send : String → μ → Bool)
    (conns : List (String × Connection)) (m : μ) : List (String × Bool) :=
  match conns with
  | [] => []
  | e :: es =>
      if e.2.status = "connected" then (e.1, send e.1 m) :: broadcast send es m
      else broadcast send es m

/-! ## Message validation and routing (p2p.js lines 313-358) -/

/-- A JavaScript runtime value as far as validateMessage observes it. Number
is modelled over Int (no NaN; the claims never feed numeric messages). -/
inductive JSValue where
  | undefined
  | null
  | bool (b : Bool)
  | num (n : Int)
  | str (s : String)
  | obj (fields : List (String × JSValue))

/-- Property lookup on an object field list (first binding wins; JavaScript
objects have unique keys). -/
def getFieldAux (fields : List (String × JSValue)) (k : String) : JSValue :=
  match fields with
  | [] => .undefined
  | f :: fs => if f.1 = k then f.2 else getFieldAux fs k

/-- Property access m.k: undefined on primitives, field lookup on objects
(validateMessage only reads properties after its truthiness and typeof
guards, so the null case is never reached there). -/
def getField (m : JSValue) (k : String) : JSValue :=
  match m with
  | .obj fs => getFieldAux fs k
  | _ => .undefined

/-- JavaScript truthiness of the modelled values. -/
def jsTruthy : JSValue → Bool
  | .undefined => false
  | .null => false
  | .bool b => b
  | .num n => !(n == 0)
  | .str s => !(s == "")
  | .obj _ => true

/-- typeof v === "object" (true for null and for objects). -/
def jsTypeofIsObject : JSValue → Bool
  | .null => true
  | .obj _ => true
  | _ => false

/-- typeof v === "string". -/
def jsTypeofIsString : JSValue → Bool
  | .str _ => true
  | _ => false

/-- v === undefined. -/
def jsIsUndefined : JSValue → Bool
  | .undefined => true
  | _ => false

/-- validateMessage (p2p.js lines 353-358): the message must be truthy, of
object type, carry a string type property and a data property that is not
undefined. -/
def validateMessage (m : JSValue) : Bool :=
  jsTruthy m && jsTypeofIsObject m && jsTypeofIsString (getField m "type")
    && !(jsIsUndefined (getField m "data"))

/-- Modelled from the spec: the five recognized-type handlers
(handlePeerAnnouncement, handleResourceUpdate, handleOffer, handleAnswer,
handleICECandidate) are awaited in handleMessage (p2p.js lines 322-336) but
defined nowhere in the repository. The design document (sections 4.5 and 7)
describes them as registering peers, recording samples or driving the
connection state machine, failing only with domain errors. They enter as
parameters over an abstract state. -/
structure MessageHandlers (σ : Type) where
  handlePeerAnnouncement : JSValue → σ → Except String Unit × σ
  handleResourceUpdate : JSValue → σ → Except String Unit × σ
  handleOffer : JSValue → σ → Except String Unit × σ
  handleAnswer : JSValue → σ → Except String Unit × σ
  handleICECandidate : JSValue → σ → Except String Unit × σ

/-- The property, stated of a handler set, that no handler ever fails with
the message-format error: per the design document the recognized-type
handlers fail only with domain errors such as the peer limit. -/
def HandlersNeverInvalidFormat {σ : Type} (H : MessageHandlers σ) : Prop :=
  ∀ d st,
    (H.handlePeerAnnouncement d st).1 ≠ Except.error "Invalid message format"
    ∧ (H.handleResourceUpdate d st).1 ≠ Except.error "Invalid message format"
    ∧ (H.handleOffer d st).1 ≠ Except.error "Invalid message format"
    ∧ (H.handleAnswer d st).1 ≠ Except.error "Invalid message format"
    ∧ (H.handleICECandidate d st).1 ≠ Except.error "Invalid message format"

/-- handleMessage (p2p.js lines 313-344): an invalid message throws the
Invalid message format error before anything else runs; otherwise the switch
dispatches on the (string) type property, an unknown type only logs a
warning, and a handler failure is rethrown by the catch. -/
def handleMessage {σ : Type} (H : MessageHandlers σ) (m : JSValue) (st : σ) :
    Except String Unit × σ :=
  if validateMessage m = false then (.error "Invalid message format", st)
  else
    match getField m "type" with
    | .str "PEER_ANNOUNCE" => H.handlePeerAnnouncement (getField m "data") st
    | .str "RESOURCE_UPDATE" => H.handleResourceUpdate (getField m "data") st
    | .str "OFFER" => H.handleOffer (getField m "data") st
    | .str "ANSWER" => H.handleAnswer (getField m "data") st
    | .str "ICE_CANDIDATE" => H.handleICECandidate (getField m "data") st
    | _ => (.ok (), st)

/-! ## Concrete instances used by witnesses and counterexamples -/

/-- A concrete sync strategy over numeric version vectors. -/
def wStrat : SyncStrategy Nat String Unit :=
  ⟨Except.ok (), fun _ _ => ⟨true⟩, fun _ _ => Except.ok ()⟩

/-- An idle concrete sync state. -/
def wSync0 : SyncState Nat := ⟨none, false, [], []⟩

/-- A concrete sync state with a pass already in flight. -/
def wSyncBusy : SyncState Nat := ⟨none, true, [], []⟩

/-- A peer whose version-vector fetch resolves. -/
def wPeerA : SyncPeer Nat String := ⟨"A", Except.ok 1⟩

/-- A peer whose version-vector fetch rejects. -/
def wPeerB : SyncPeer Nat String := ⟨"B", Except.error "x"⟩

/-- A second peer whose version-vector fetch resolves. -/
def wPeerC : SyncPeer Nat String := ⟨"Cp", Except.ok 2⟩

/-- A concrete stand-in for the SHA-256 hex digest. -/
def cxHash (s : String) : String := s

/-- A concrete peer descriptor. -/
def cxPeer : Peer := ⟨"Alice", "K", ""⟩

/-- A stale closed connection with two retries already spent. -/
def cxOldConn : Connection := ⟨0, "K", "closed", 0, none, 2⟩

/-- A connection table already at the default maximum of 20 entries,
including the stale connection of peer K. -/
def cxConns : List (String × Connection) :=
  ("K", cxOldConn) ::
    (List.range 19).map (fun i => ("d" ++ toString i, ⟨i + 1, "d" ++ toString i, "connected", 0, none, 0⟩))

/-- A network state with peer K registered and the connection table full. -/
def cxState : NetworkState := ⟨[("K", cxPeer)], cxConns, [], [], 100⟩

/-- A network state with peer K registered and room in both tables. -/
def wReaddState : NetworkState := ⟨[("K", cxPeer)], [], [], [], 7⟩

/-- Ten registered peers, the default maxPeers population. -/
def peersAtLimit : List (String × Peer) :=
  (List.range 10).map (fun i => (toString i, ⟨"n", toString i, ""⟩))

/-- A network state whose peer directory is at the default limit. -/
def stateAtLimit : NetworkState := ⟨peersAtLimit, [], [], [], 0⟩

/-- Handlers that always succeed without touching the state. -/
def trivialHandlers : MessageHandlers Nat :=
  ⟨fun _ s => (Except.ok (), s), fun _ s => (Except.ok (), s), fun _ s => (Except.ok (), s),
   fun _ s => (Except.ok (), s), fun _ s => (Except.ok (), s)⟩

/-- A structured message with a string type but no data field. -/
def badMsg : JSValue := JSValue.obj [("type", JSValue.str "TEST")]

/-- A connected connection with a stale lastActive stamp and no retries. -/
def wConn : Connection := ⟨1, "p", "connected", 0, some 0, 0⟩

/-- A one-entry connection table holding wConn. -/
def wConns : List (String × Connection) := [("p", wConn)]

/-- A connection with two retries spent, for the retry-policy witness. -/
def wRetryConn : Connection := ⟨7, "p", "closed", 0, none, 2⟩

/-! ## Association-list lemmas -/

theorem mapGet_mapSet_self {β : Type} (m : List (String × β)) (k : String) (v : β) :
    mapGet (mapSet m k v) k = some v := by
  induction m with
  | nil => simp [mapSet, mapGet]
  | cons e es ih =>
      by_cases h : e.1 = k
      · simp [mapSet, h, mapGet]
      · simp [mapSet, h, mapGet, ih]

theorem mapGet_mapSet_ne {β : Type} (m : List (String × β)) (k k' : String) (v : β)
    (h : k ≠ k') : mapGet (mapSet m k v) k' = mapGet m k' := by
  induction m with
  | nil => simp [mapSet, mapGet, h]
  | cons e es ih =>
      by_cases he : e.1 = k
      · have hne : e.1 ≠ k' := by rw [he]; exact h
        simp [mapSet, he, mapGet, h, hne]
      · simp [mapSet, he, mapGet, ih]

theorem length_mapSet_of_has {β : Type} (m : List (String × β)) (k : String) (v : β)
    (h : mapHas m k = true) : (mapSet m k v).length = m.length := by
  induction m with
  | nil => simp [mapHas, mapGet] at h
  | cons e es ih =>
      by_cases he : e.1 = k
      · simp [mapSet, he]
      · have h' : mapHas es k = true := by simpa [mapHas, mapGet, he] using h
        simp [mapSet, he, ih h']

theorem mem_keys_of_mapGet_some {β : Type} {m : List (String × β)} {k : String} {v : β}
    (h : mapGet m k = some v) : k ∈ m.map Prod.fst := by
  induction m with
  | nil => simp [mapGet] at h
  | cons e es ih =>
      by_cases he : e.1 = k
      · simp only [List.map_cons, List.mem_cons]
        exact Or.inl he.symm
      · simp only [mapGet, he, if_false] at h
        simp only [List.map_cons, List.mem_cons]
        exact Or.inr (ih h)

theorem getElem_append_cons_len {α : Type} (l1 : List α) (a : α) (l2 : List α) :
    (l1 ++ a :: l2)[l1.length]? = some a := by
  induction l1 with
  | nil => simp
  | cons x xs ih => simpa using ih

/-! ## Sync-loop lemmas -/

theorem syncLoop_trace_ids {V E C : Type} (strat : SyncStrategy V E C)
    (st : SyncState V) (ps : List (SyncPeer V E)) :
    ((syncLoop strat st ps).2).map Prod.fst = ps.map SyncPeer.id := by
  induction ps generalizing st with
  | nil => simp [syncLoop]
  | cons p ps ih => simp [syncLoop, ih]

theorem syncLoop_append {V E C : Type} (strat : SyncStrategy V E C)
    (st : SyncState V) (l1 l2 : List (SyncPeer V E)) :
    syncLoop strat st (l1 ++ l2) =
      ((syncLoop strat (syncLoop strat st l1).1 l2).1,
       (syncLoop strat st l1).2 ++ (syncLoop strat (syncLoop strat st l1).1 l2).2) := by
  induction l1 generalizing st with
  | nil => simp [syncLoop]
  | cons p ps ih => simp [syncLoop, ih]

theorem syncLoop_trace_length {V E C : Type} (strat : SyncStrategy V E C)
    (st : SyncState V) (ps : List (SyncPeer V E)) :
    ((syncLoop strat st ps).2).length = ps.length := by
  have h := syncLoop_trace_ids strat st ps
  calc ((syncLoop strat st ps).2).length
      = (((syncLoop strat st ps).2).map Prod.fst).length := (List.length_map _ _).symm
    _ = (ps.map SyncPeer.id).length := by rw [h]
    _ = ps.length := List.length_map _ _

/-! ## Claim theorems -/

/-- Claim C1: when syncState.syncInProgress is already true, syncWithPeers is
a no-op for every peer list: it resolves (no exception), attempts no peer,
and leaves the whole syncState - lastSync, syncInProgress, pendingChanges
and versionVector - unchanged. -/
theorem syncWithPeers_inProgress_noop {V E C : Type} (strat : SyncStrategy V E C)
    (now : Nat) (st : SyncState V) (peers : List (SyncPeer V E))
    (h : st.syncInProgress = true) :
    syncWithPeers strat now st peers = ⟨st, [], Except.ok ()⟩ := by
  simp [syncWithPeers, h]

/-- Witness for C1 at a concrete busy state. -/
theorem syncWithPeers_inProgress_noop_witness :
    wSyncBusy.syncInProgress = true
    ∧ syncWithPeers wStrat 5 wSyncBusy [wPeerA] = ⟨wSyncBusy, [], Except.ok ()⟩ :=
  ⟨rfl, syncWithPeers_inProgress_noop wStrat 5 wSyncBusy [wPeerA] rfl⟩

/-- Claim C2: in a sync pass (flag initially clear, local changes obtained),
a peer whose getVersionVector rejects is skipped - its step leaves the state
untouched - while every peer of the list, the later ones included, is still
attempted in order; the pass resolves, and syncInProgress is false when any
pass ends, on every exit path including a getLocalChanges rejection. -/
theorem syncWithPeers_peer_failure_isolated {V E C : Type}
    (strat : SyncStrategy V E C) (now : Nat) (st : SyncState V)
    (pre post : List (SyncPeer V E)) (bad : SyncPeer V E) (e : E) (ch : C)
    (hflag : st.syncInProgress = false)
    (hchg : strat.getLocalChanges = Except.ok ch)
    (hbad : bad.getVersionVector = Except.error e) :
    ((syncWithPeers strat now st (pre ++ bad :: post)).trace).map Prod.fst
        = (pre ++ bad :: post).map SyncPeer.id
    ∧ ((syncWithPeers strat now st (pre ++ bad :: post)).trace)[pre.length]?
        = some (bad.id, PeerSyncOutcome.skipped)
    ∧ (∀ stx : SyncState V, syncOnePeer strat stx bad = (stx, PeerSyncOutcome.skipped))
    ∧ (syncWithPeers strat now st (pre ++ bad :: post)).state.syncInProgress = false
    ∧ (syncWithPeers strat now st (pre ++ bad :: post)).outcome = Except.ok ()
    ∧ (∀ (strat2 : SyncStrategy V E C) (st2 : SyncState V)
        (peers2 : List (SyncPeer V E)), st2.syncInProgress = false →
        (syncWithPeers strat2 now st2 peers2).state.syncInProgress = false) := by
  have hskip : ∀ stx : SyncState V, syncOnePeer strat stx bad = (stx, PeerSyncOutcome.skipped) := by
    intro stx
    simp [syncOnePeer, hbad]
  have hres : syncWithPeers strat now st (pre ++ bad :: post)
      = ⟨{ (syncLoop strat { st with lastSync := some now, syncInProgress := true } (pre ++ bad :: post)).1
             with syncInProgress := false },
         (syncLoop strat { st with lastSync := some now, syncInProgress := true } (pre ++ bad :: post)).2,
         Except.ok ()⟩ := by
    simp [syncWithPeers, hflag, hchg]
  refine ⟨?_, ?_, hskip, ?_, ?_, ?_⟩
  · rw [hres]
    exact syncLoop_trace_ids _ _ _
  · rw [hres]
    have happ := syncLoop_append strat
      { st with lastSync := some now, syncInProgress := true } pre (bad :: post)
    have hlen := syncLoop_trace_length strat
      { st with lastSync := some now, syncInProgress := true } pre
    rw [happ]
    simp only []
    rw [← hlen, syncLoop, hskip]
    simp only []
    exact getElem_append_cons_len _ _ _
  · rw [hres]
  · rw [hres]
  · intro strat2 st2 peers2 h2
    cases hg : strat2.getLocalChanges with
    | error e2 => simp [syncWithPeers, h2, hg]
    | ok c2 => simp [syncWithPeers, h2, hg]

/-- Witness for C2 at a concrete pass in which the middle peer rejects. -/
theorem syncWithPeers_peer_failure_isolated_witness :
    wSync0.syncInProgress = false
    ∧ wStrat.getLocalChanges = Except.ok ()
    ∧ wPeerB.getVersionVector = Except.error "x"
    ∧ (syncWithPeers wStrat 5 wSync0 ([wPeerA] ++ wPeerB :: [wPeerC])).state.syncInProgress = false :=
  ⟨rfl, rfl, rfl,
    (syncWithPeers_peer_failure_isolated wStrat 5 wSync0 [wPeerA] [wPeerC] wPeerB "x" ()
      rfl rfl rfl).2.2.2.1⟩

/-- Claim C3: on success addPeer returns exactly the SHA-256 hex digest of
the descriptor publicKey (generatePeerId applied to the descriptor), so two
addPeer calls with the same publicKey - whatever the state, time or limits -
yield the same peer id. -/
theorem addPeer_id_is_hash_of_publicKey (sha256hex : String → String)
    (limits1 limits2 : P2PLimits) (now1 now2 : Nat) (st1 st2 : NetworkState)
    (p1 p2 : Peer)
    (h1 : st1.peers.length < limits1.maxPeers)
    (h2 : st2.peers.length < limits2.maxPeers)
    (hpk : p1.publicKey = p2.publicKey) :
    (addPeer sha256hex limits1 now1 st1 p1).1 = Except.ok (generatePeerId sha256hex p1)
    ∧ generatePeerId sha256hex p1 = sha256hex p1.publicKey
    ∧ (addPeer sha256hex limits2 now2 st2 p2).1 = Except.ok (generatePeerId sha256hex p1) := by
  have g1 : ¬ (limits1.maxPeers ≤ st1.peers.length) := by omega
  have g2 : ¬ (limits2.maxPeers ≤ st2.peers.length) := by omega
  refine ⟨?_, rfl, ?_⟩
  · simp [addPeer, g1]
  · simp [addPeer, g2, generatePeerId, hpk]

/-- Witness for C3: two descriptors sharing a public key, added to different
states, receive the same id. -/
theorem addPeer_id_is_hash_of_publicKey_witness :
    (NetworkState.mk [] [] [] [] 0).peers.length < defaultLimits.maxPeers
    ∧ wReaddState.peers.length < defaultLimits.maxPeers
    ∧ (Peer.mk "a" "pk" "").publicKey = (Peer.mk "b" "pk" "").publicKey
    ∧ (addPeer cxHash defaultLimits 1 ⟨[], [], [], [], 0⟩ ⟨"a", "pk", ""⟩).1
        = Except.ok (generatePeerId cxHash ⟨"a", "pk", ""⟩) :=
  ⟨by decide, by decide, rfl,
    (addPeer_id_is_hash_of_publicKey cxHash defaultLimits defaultLimits 1 2
      ⟨[], [], [], [], 0⟩ wReaddState ⟨"a", "pk", ""⟩ ⟨"b", "pk", ""⟩
      (by decide) (by decide) rfl).1⟩

/-- Claim C4: when the peer directory has reached maxPeers, addPeer fails
with the peer-limit error and the whole state - the in-memory directory and
the persisted tables - is exactly what it was, so the directory size is
unchanged and no record is persisted. -/
theorem addPeer_limit_rejected (sha256hex : String → String) (limits : P2PLimits)
    (now : Nat) (st : NetworkState) (p : Peer)
    (h : limits.maxPeers ≤ st.peers.length) :
    addPeer sha256hex limits now st p = (Except.error "Maximum peer limit reached", st)
    ∧ (addPeer sha256hex limits now st p).2.peers.length = st.peers.length := by
  constructor
  · simp [addPeer, h]
  · simp [addPeer, h]

/-- Witness for C4: an eleventh peer is rejected when ten are registered and
the directory stays at ten entries. -/
theorem addPeer_limit_rejected_witness :
    defaultLimits.maxPeers ≤ stateAtLimit.peers.length
    ∧ stateAtLimit.peers.length = 10
    ∧ addPeer cxHash defaultLimits 3 stateAtLimit ⟨"Extra", "extra-key", ""⟩
        = (Except.error "Maximum peer limit reached", stateAtLimit) :=
  ⟨by decide, by decide,
    (addPeer_limit_rejected cxHash defaultLimits 3 stateAtLimit ⟨"Extra", "extra-key", ""⟩
      (by decide)).1⟩

/-- Claim C5: provided the recognized-type handlers never fail with the
message-format error (per the design document they fail only with domain
errors), handleMessage fails with the Invalid message format error exactly
when the inbound value is not a truthy object with a string type property
and a non-undefined data property; and on an invalid message the state is
returned untouched. -/
theorem handleMessage_invalid_format_iff {σ : Type} (H : MessageHandlers σ)
    (hH : HandlersNeverInvalidFormat H) (m : JSValue) (st : σ) :
    ((handleMessage H m st).1 = Except.error "Invalid message format"
        ↔ validateMessage m = false)
    ∧ (validateMessage m = false → (handleMessage H m st).2 = st) := by
  cases hvm : validateMessage m with
  | false =>
      constructor
      · constructor
        · intro _
          rfl
        · intro _
          simp [handleMessage, hvm]
      · intro _
        simp [handleMessage, hvm]
  | true =>
      constructor
      · constructor
        · intro hfail
          exfalso
          obtain ⟨ha, hb, hc, hd, he⟩ := hH (getField m "data") st
          simp only [handleMessage, hvm, Bool.true_eq_false, if_false] at hfail
          split at hfail
          · exact ha hfail
          · exact hb hfail
          · exact hc hfail
          · exact hd hfail
          · exact he hfail
          · simp at hfail
        · intro hfalse
          simp at hfalse
      · intro hfalse
        simp at hfalse

/-- Witness for C5: trivially succeeding handlers and a message lacking the
data field. -/
theorem handleMessage_invalid_format_iff_witness :
    HandlersNeverInvalidFormat trivialHandlers
    ∧ (((handleMessage trivialHandlers badMsg 0).1 = Except.error "Invalid message format")
        ↔ validateMessage badMsg = false) :=
  ⟨fun d st => by simp [trivialHandlers],
    (handleMessage_invalid_format_iff trivialHandlers
      (fun d st => by simp [trivialHandlers]) badMsg 0).1⟩

/-! ## Connection-supervisor lemmas -/

theorem mapGet_closeConnection_ne (conns : List (String × Connection))
    (k q : String) (h : q ≠ k) :
    mapGet (closeConnection conns k) q = mapGet conns q := by
  unfold closeConnection
  cases hc : mapGet conns k with
  | none => rfl
  | some c => exact mapGet_mapSet_ne conns k q _ (Ne.symm h)

theorem mapGet_retryConnection_ne (cfg : P2PConfig) (conns : List (String × Connection))
    (k q : String) (h : q ≠ k) :
    mapGet (retryConnection cfg conns k).1 q = mapGet conns q := by
  unfold retryConnection
  cases hc : mapGet conns k with
  | none => rfl
  | some c => exact mapGet_mapSet_ne conns k q _ (Ne.symm h)

theorem mapGet_handleConnectionTimeout_ne (cfg : P2PConfig)
    (conns : List (String × Connection)) (k q : String) (h : q ≠ k) :
    mapGet (handleConnectionTimeout cfg conns k).1 q = mapGet conns q := by
  unfold handleConnectionTimeout
  by_cases hs : shouldRetryConnection cfg (closeConnection conns k) k
  · simp only [hs, if_true]
    rw [mapGet_retryConnection_ne cfg _ k q h, mapGet_closeConnection_ne conns k q h]
  · simp only [hs]
    simp only [Bool.false_eq_true, if_false]
    exact mapGet_closeConnection_ne conns k q h

theorem mapGet_monitorStep_ne (cfg : P2PConfig) (now : Nat)
    (acc : List (String × Connection)) (k q : String) (h : q ≠ k) :
    mapGet (monitorStep cfg now acc k) q = mapGet acc q := by
  unfold monitorStep
  cases hc : mapGet acc k with
  | none => rfl
  | some c =>
      by_cases hcond : (c.status == "connected" && connTimedOut cfg now c) = true
      · simp only [hcond, if_true]
        exact mapGet_handleConnectionTimeout_ne cfg acc k q h
      · simp only [hcond]
        simp only [Bool.false_eq_true, if_false]

theorem foldl_monitorStep_not_mem (cfg : P2PConfig) (now : Nat)
    (ks : List String) (m : List (String × Connection)) (q : String)
    (h : q ∉ ks) :
    mapGet (ks.foldl (monitorStep cfg now) m) q = mapGet m q := by
  induction ks generalizing m with
  | nil => rfl
  | cons k ks ih =>
      have hq : q ≠ k := by
        intro he
        exact h (he ▸ List.mem_cons_self k ks)
      have hks : q ∉ ks := fun hm => h (List.mem_cons_of_mem k hm)
      rw [List.foldl_cons, ih _ hks, mapGet_monitorStep_ne cfg now m k q hq]

/-- The effect of handleConnectionTimeout on the timed-out peer's own entry
when retries are not exhausted: the connection is closed and its retries
counter is incremented by one. -/
theorem mapGet_handleConnectionTimeout_self (cfg : P2PConfig)
    (conns : List (String × Connection)) (peerId : String) (c : Connection)
    (h : mapGet conns peerId = some c) (hret : c.retries < cfg.maxRetries) :
    mapGet (handleConnectionTimeout cfg conns peerId).1 peerId
      = some { c with status := "closed", retries := c.retries + 1 } := by
  have hclose : closeConnection conns peerId
      = mapSet conns peerId { c with status := "closed" } := by
    simp [closeConnection, h]
  have hget : mapGet (closeConnection conns peerId) peerId
      = some { c with status := "closed" } := by
    rw [hclose]
    exact mapGet_mapSet_self conns peerId _
  have hshould : shouldRetryConnection cfg (closeConnection conns peerId) peerId = true := by
    simp [shouldRetryConnection, hget, hret]
  unfold handleConnectionTimeout
  simp only [hshould, if_true]
  unfold retryConnection
  rw [hget]
  simp only []
  rw [mapGet_mapSet_self]

/-- Claim C6 (retry policy): for a peer with a tracked connection,
shouldRetryConnection decides exactly retries < maxRetries; on a timeout or
an establishment failure a new attempt is scheduled precisely when
retries < maxRetries, the counter is incremented first, and the scheduled
delay is retryDelay * (retries + 1) - linear backoff; once retries equals
maxRetries, shouldRetryConnection is false and neither path schedules a
further attempt. -/
theorem retry_policy_linear_backoff (cfg : P2PConfig)
    (conns : List (String × Connection)) (peerId : String) (c : Connection)
    (h : mapGet conns peerId = some c) :
    shouldRetryConnection cfg conns peerId = decide (c.retries < cfg.maxRetries)
    ∧ (handleConnectionTimeout cfg conns peerId).2
        = (if c.retries < cfg.maxRetries then some (cfg.retryDelay * (c.retries + 1)) else none)
    ∧ (handleConnectionError cfg conns peerId).2
        = (if c.retries < cfg.maxRetries then some (cfg.retryDelay * (c.retries + 1)) else none)
    ∧ (c.retries < cfg.maxRetries →
        mapGet (handleConnectionTimeout cfg conns peerId).1 peerId
          = some { c with status := "closed", retries := c.retries + 1 })
    ∧ (c.retries = cfg.maxRetries →
        shouldRetryConnection cfg conns peerId = false
        ∧ (handleConnectionTimeout cfg conns peerId).2 = none
        ∧ (handleConnectionError cfg conns peerId).2 = none) := by
  have hclose : closeConnection conns peerId
      = mapSet conns peerId { c with status := "closed" } := by
    simp [closeConnection, h]
  have hget : mapGet (closeConnection conns peerId) peerId
      = some { c with status := "closed" } := by
    rw [hclose]
    exact mapGet_mapSet_self conns peerId _
  have hsr : shouldRetryConnection cfg (closeConnection conns peerId) peerId
      = decide (c.retries < cfg.maxRetries) := by
    simp [shouldRetryConnection, hget]
  have hsnd : ∀ m2 : List (String × Connection),
      mapGet m2 peerId = some { c with status := "closed" } →
      (retryConnection cfg m2 peerId).2 = some (cfg.retryDelay * (c.retries + 1)) := by
    intro m2 hm2
    simp [retryConnection, hm2]
  by_cases hr : c.retries < cfg.maxRetries
  · have hsrt : shouldRetryConnection cfg (closeConnection conns peerId) peerId = true := by
      rw [hsr]
      simp [hr]
    refine ⟨by simp [shouldRetryConnection, h, hr], ?_, ?_, ?_, ?_⟩
    · unfold handleConnectionTimeout
      rw [if_pos hsrt, hsnd _ hget]
      simp [hr]
    · unfold handleConnectionError
      rw [if_pos hsrt, hsnd _ hget]
      simp [hr]
    · intro _
      exact mapGet_handleConnectionTimeout_self cfg conns peerId c h hr
    · intro he
      omega
  · have hsrf : ¬ (shouldRetryConnection cfg (closeConnection conns peerId) peerId = true) := by
      rw [hsr]
      simp [hr]
    refine ⟨by simp [shouldRetryConnection, h, hr], ?_, ?_, ?_, ?_⟩
    · unfold handleConnectionTimeout
      rw [if_neg hsrf]
      simp [hr]
    · unfold handleConnectionError
      rw [if_neg hsrf]
      simp [hr]
    · intro hc
      exact absurd hc hr
    · intro _
      refine ⟨by simp [shouldRetryConnection, h, hr], ?_, ?_⟩
      · unfold handleConnectionTimeout
        rw [if_neg hsrf]
      · unfold handleConnectionError
        rw [if_neg hsrf]

/-- Witness for C6 at a connection with two of three retries spent. -/
theorem retry_policy_linear_backoff_witness :
    mapGet [("p", wRetryConn)] "p" = some wRetryConn
    ∧ (handleConnectionTimeout defaultConfig [("p", wRetryConn)] "p").2
        = (if wRetryConn.retries < defaultConfig.maxRetries
            then some (defaultConfig.retryDelay * (wRetryConn.retries + 1)) else none) :=
  ⟨by decide,
    (retry_policy_linear_backoff defaultConfig [("p", wRetryConn)] "p" wRetryConn
      (by decide)).2.1⟩

/-- The monitor body at a connected, timed-out entry with retries to spare:
the entry comes out closed with retries incremented. -/
theorem monitorStep_timeout (cfg : P2PConfig) (now : Nat)
    (acc : List (String × Connection)) (peerId : String) (c : Connection) (t : Nat)
    (h : mapGet acc peerId = some c)
    (hstatus : c.status = "connected")
    (hlast : c.lastActive = some t)
    (htime : cfg.connectionTimeout < now - t)
    (hret : c.retries < cfg.maxRetries) :
    mapGet (monitorStep cfg now acc peerId) peerId
      = some { c with status := "closed", retries := c.retries + 1 } := by
  have hcond : (c.status == "connected" && connTimedOut cfg now c) = true := by
    simp [hstatus, connTimedOut, hlast, htime]
  simp only [monitorStep, h, hcond, if_true]
  exact mapGet_handleConnectionTimeout_self cfg acc peerId c h hret

/-- Claim C7: one run of the heartbeat monitor takes every connected
connection whose lastActive is older than the connection timeout out of the
connected status (it is closed and handed to the retry policy) and the retry
attempt increments its retries counter by exactly one. -/
theorem monitor_timeout_closes_and_retries (cfg : P2PConfig) (now : Nat)
    (conns : List (String × Connection)) (peerId : String) (c : Connection) (t : Nat)
    (hnodup : (conns.map Prod.fst).Nodup)
    (h : mapGet conns peerId = some c)
    (hstatus : c.status = "connected")
    (hlast : c.lastActive = some t)
    (htime : cfg.connectionTimeout < now - t)
    (hret : c.retries < cfg.maxRetries) :
    mapGet (monitorConnections cfg now conns) peerId
      = some { c with status := "closed", retries := c.retries + 1 }
    ∧ ({ c with status := "closed", retries := c.retries + 1 } : Connection).status
        ≠ "connected"
    ∧ ({ c with status := "closed", retries := c.retries + 1 } : Connection).retries
        = c.retries + 1 := by
  refine ⟨?_, by simp, rfl⟩
  obtain ⟨l1, l2, hdec⟩ := List.append_of_mem (mem_keys_of_mapGet_some h)
  have hnd : (l1 ++ peerId :: l2).Nodup := hdec ▸ hnodup
  have hnot1 : peerId ∉ l1 := by
    intro hm
    exact (List.disjoint_of_nodup_append hnd) hm (List.mem_cons_self peerId l2)
  have hnot2 : peerId ∉ l2 :=
    (List.nodup_cons.mp (hnd.of_append_right)).1
  unfold monitorConnections
  rw [hdec, List.foldl_append, List.foldl_cons]
  have hm1 : mapGet (l1.foldl (monitorStep cfg now) conns) peerId = some c := by
    rw [foldl_monitorStep_not_mem cfg now l1 conns peerId hnot1]
    exact h
  rw [foldl_monitorStep_not_mem cfg now l2 _ peerId hnot2]
  exact monitorStep_timeout cfg now _ peerId c t hm1 hstatus hlast htime hret

/-- Witness for C7: one connected connection, idle past the default 10s
timeout, is closed with its retries counter going from 0 to 1. -/
theorem monitor_timeout_closes_and_retries_witness :
    (wConns.map Prod.fst).Nodup
    ∧ mapGet wConns "p" = some wConn
    ∧ wConn.status = "connected"
    ∧ wConn.lastActive = some 0
    ∧ defaultConfig.connectionTimeout < 11001 - 0
    ∧ wConn.retries < defaultConfig.maxRetries
    ∧ mapGet (monitorConnections defaultConfig 11001 wConns) "p"
        = some { wConn with status := "closed", retries := wConn.retries + 1 } :=
  ⟨by decide, by decide, rfl, rfl, by decide, by decide,
    (monitor_timeout_closes_and_retries defaultConfig 11001 wConns "p" wConn 0
      (by decide) (by decide) rfl rfl (by decide) (by decide)).1⟩

/-- Claim C8: when the peer exists, a failing offer/answer exchange never
escapes establishConnection as an exception: the call resolves and the
failure is handed to the (spec-modelled) handleConnectionError retry
reporter. -/
theorem establishConnection_no_propagation (cfg : P2PConfig) (now : Nat)
    (peers : List (String × Peer)) (conns : List (String × Connection))
    (peerId : String) (p : Peer) (e : String)
    (h : mapGet peers peerId = some p) :
    establishConnection cfg now peers conns peerId (Except.error e)
      = (Except.ok (), handleConnectionError cfg conns peerId) := by
  simp [establishConnection, h]

/-- Witness for C8 at a concrete failing exchange. -/
theorem establishConnection_no_propagation_witness :
    mapGet [("p", cxPeer)] "p" = some cxPeer
    ∧ establishConnection defaultConfig 4 [("p", cxPeer)] wConns "p" (Except.error "boom")
        = (Except.ok (), handleConnectionError defaultConfig wConns "p") :=
  ⟨by decide,
    establishConnection_no_propagation defaultConfig 4 [("p", cxPeer)] wConns "p" cxPeer
      "boom" (by decide)⟩

/-- The peers to which broadcast attempts a send are exactly the entries
whose connection status is connected, in table order. -/
theorem broadcast_map_fst {μ : Type} (send : String → μ → Bool)
    (conns : List (String × Connection)) (m : μ) :
    (broadcast send conns m).map Prod.fst
      = (conns.filter (fun e => e.2.status == "connected")).map Prod.fst := by
  induction conns with
  | nil => rfl
  | cons e es ih =>
      by_cases hc : e.2.status = "connected"
      · simp [broadcast, hc, ih]
      · simp [broadcast, hc, ih]

/-- Claim C9: broadcast attempts a send to exactly the peers whose
connection status is connected, and the set of attempted peers does not
depend on the per-peer send outcomes - one peer's failure never prevents the
attempts to the remaining connected peers. -/
theorem broadcast_connected_isolation {μ : Type} (send : String → μ → Bool)
    (conns : List (String × Connection)) (m : μ) :
    (broadcast send conns m).map Prod.fst
      = (conns.filter (fun e => e.2.status == "connected")).map Prod.fst
    ∧ ∀ send2 : String → μ → Bool,
        (broadcast send2 conns m).map Prod.fst = (broadcast send conns m).map Prod.fst := by
  refine ⟨broadcast_map_fst send conns m, ?_⟩
  intro send2
  rw [broadcast_map_fst send2 conns m, broadcast_map_fst send conns m]

/-- Counterexample to C10 as stated: with peer K registered, the peer
directory under its limit, but the connection table already holding the
default maximum of 20 entries, re-adding K succeeds and overwrites the
record, yet no fresh connection is initialized - peer K keeps its stale
closed connection with two retries spent, because initializeConnection
rejects at the connection limit and addPeer ignores that rejection. -/
theorem addPeer_readd_counterexample :
    cxState.peers.length < defaultLimits.maxPeers
    ∧ mapHas cxState.peers "K" = true
    ∧ cxState.connections.length = defaultLimits.maxConnections
    ∧ (addPeer cxHash defaultLimits 5 cxState cxPeer).1 = Except.ok "K"
    ∧ mapGet (addPeer cxHash defaultLimits 5 cxState cxPeer).2.connections "K"
        = some cxOldConn
    ∧ cxOldConn.status ≠ "initializing"
    ∧ cxOldConn.retries ≠ 0 := by
  refine ⟨by decide, by decide, by decide, rfl, ?_, by decide, by decide⟩
  decide

/-- Claim C10 as amended: re-adding a registered public key while under the
peer limit and while the connection table is under its configured maximum
returns the same id, leaves the peer count unchanged, overwrites the
persisted record with trustScore reset to 1 and status reset to new, and
initializes a fresh connection (status initializing, zero retries) for that
peer. -/
theorem addPeer_readd_overwrites (sha256hex : String → String) (limits : P2PLimits)
    (now : Nat) (st : NetworkState) (p : Peer)
    (hpeers : st.peers.length < limits.maxPeers)
    (hconns : st.connections.length < limits.maxConnections)
    (hreg : mapHas st.peers (generatePeerId sha256hex p) = true) :
    (addPeer sha256hex limits now st p).1 = Except.ok (generatePeerId sha256hex p)
    ∧ (addPeer sha256hex limits now st p).2.peers.length = st.peers.length
    ∧ mapGet (addPeer sha256hex limits now st p).2.dbPeers (generatePeerId sha256hex p)
        = some ⟨p.name, p.publicKey, now, 1, "new", p.metadata⟩
    ∧ mapGet (addPeer sha256hex limits now st p).2.connections (generatePeerId sha256hex p)
        = some ⟨st.nextConnId, generatePeerId sha256hex p, "initializing", now, none, 0⟩ := by
  have g1 : ¬ (limits.maxPeers ≤ st.peers.length) := by omega
  have g2 : ¬ (limits.maxConnections ≤ st.connections.length) := by omega
  refine ⟨?_, ?_, ?_, ?_⟩
  · simp [addPeer, g1]
  · simp only [addPeer, g1, if_false, initializeConnection, g2]
    exact length_mapSet_of_has st.peers (generatePeerId sha256hex p) p hreg
  · simp only [addPeer, g1, if_false, initializeConnection, g2]
    exact mapGet_mapSet_self st.dbPeers (generatePeerId sha256hex p) _
  · simp only [addPeer, g1, if_false, initializeConnection, g2]
    exact mapGet_mapSet_self st.connections (generatePeerId sha256hex p) _

/-- Witness for the amended C10 at a state with room in both tables. -/
theorem addPeer_readd_overwrites_witness :
    wReaddState.peers.length < defaultLimits.maxPeers
    ∧ wReaddState.connections.length < defaultLimits.maxConnections
    ∧ mapHas wReaddState.peers (generatePeerId cxHash cxPeer) = true
    ∧ mapGet (addPeer cxHash defaultLimits 5 wReaddState cxPeer).2.connections
        (generatePeerId cxHash cxPeer)
        = some ⟨wReaddState.nextConnId, generatePeerId cxHash cxPeer, "initializing", 5, none, 0⟩ :=
  ⟨by decide, by decide, by decide,
    (addPeer_readd_overwrites cxHash defaultLimits 5 wReaddState cxPeer
      (by decide) (by decide) (by decide)).2.2.2⟩

end Beehive
